import Mathlib

/-!
Verification of the game-session logic of the CHeSs repository (`src/main.py`).

The repository is an HTTP wrapper around two external collaborators: the
python-chess rules engine (legality, captures, termination, SAN) and a UCI
search engine invoked for the automated reply.  The wrapper's own behaviour —
candidate-move construction with forced queen promotion, capture bookkeeping
into two per-side lists, the two-ply undo, and snapshot construction — is
embedded below as pure functions over a `Session` record that mirrors the
per-game entry in the `games` dictionary.

A position of the rules engine is identified with its move stack played from
the standard starting position; this is exactly the state the wrapper can
observe (`board.push`, `board.pop`, and queries that are functions of the
current position).  The collaborator itself is modelled from the spec as the
`RulesEngine` structure: one field per query `src/main.py` performs, together
with the facts the spec guarantees about it (legal moves originate from an
occupied square; the starting position has the standard arrangement with
White to move, the game not over and not in check).  The automated reply is
an oracle `ai : List Move → Move`; the request/undo reachability relation
assumes, as the spec does, that a returned reply is legal in the position it
was requested for.
-/

namespace ChessApp

/-- Piece kinds of the rules engine (`chess.PAWN`, …, `chess.KING`). -/
inductive PieceType where
  | pawn | knight | bishop | rook | queen | king
deriving DecidableEq, Repr

/-- A piece as the rules engine reports it: a kind and a colour
(`white = true` for White). -/
structure Piece where
  ptype : PieceType
  white : Bool
deriving DecidableEq, Repr

/-- Uppercase letter of a piece kind (White symbols in python-chess). -/
def PieceType.upperChar : PieceType → Char
  | .pawn => 'P'
  | .knight => 'N'
  | .bishop => 'B'
  | .rook => 'R'
  | .queen => 'Q'
  | .king => 'K'

/-- Lowercase letter of a piece kind (Black symbols in python-chess). -/
def PieceType.lowerChar : PieceType → Char
  | .pawn => 'p'
  | .knight => 'n'
  | .bishop => 'b'
  | .rook => 'r'
  | .queen => 'q'
  | .king => 'k'

/-- The `piece.symbol()` call of the rules engine: uppercase for White,
lowercase for Black. -/
def Piece.symbol (p : Piece) : Char :=
  if p.white then p.ptype.upperChar else p.ptype.lowerChar

/-- A move as `src/main.py` constructs it: origin square, destination square
(0–63, `rank*8+file` as in python-chess) and an optional promotion kind. -/
structure Move where
  fromSq : Nat
  toSq : Nat
  promotion : Option PieceType
deriving DecidableEq, Repr

/-- The `chess.square(file, rank)` encoding. -/
def square (file rank : Nat) : Nat := rank * 8 + file

/-- The `chess.square_rank` decoding. -/
def square_rank (sq : Nat) : Nat := sq / 8

/-- The `chess.square_file` decoding. -/
def square_file (sq : Nat) : Nat := sq % 8

/-- Back-rank piece kind by file of the standard starting arrangement. -/
def backRank : Nat → PieceType
  | 0 => .rook
  | 1 => .knight
  | 2 => .bishop
  | 3 => .queen
  | 4 => .king
  | 5 => .bishop
  | 6 => .knight
  | 7 => .rook
  | _ => .rook

/-- Modelled from the spec: the standard starting arrangement of
`chess.Board()` — White's pieces on ranks 0 and 1, Black's on ranks 6
and 7. -/
def startBoard (sq : Nat) : Option Piece :=
  if square_rank sq = 0 then some ⟨backRank (square_file sq), true⟩
  else if square_rank sq = 1 then some ⟨.pawn, true⟩
  else if square_rank sq = 6 then some ⟨.pawn, false⟩
  else if square_rank sq = 7 then some ⟨backRank (square_file sq), false⟩
  else none

/-- Modelled from the spec: the external rules-engine collaborator
(python-chess), absent from `src/`.  A position is identified with its move
stack from the standard starting position; each function field is one of the
queries `src/main.py` performs on a `chess.Board`.  The `Prop` fields are the
facts the spec guarantees and the claims rely on: every legal move starts
from an occupied square, and the starting position has the standard
arrangement, White to move, the game not over and the side to move not in
check. -/
structure RulesEngine where
  legalMoves : List Move → List Move
  pieceAt : List Move → Nat → Option Piece
  isCapture : List Move → Move → Bool
  isGameOver : List Move → Bool
  turnWhite : List Move → Bool
  isCheck : List Move → Bool
  isCheckmate : List Move → Bool
  isStalemate : List Move → Bool
  isInsufficientMaterial : List Move → Bool
  isSeventyfiveMoves : List Move → Bool
  isFivefoldRepetition : List Move → Bool
  result : List Move → String
  san : List Move → Move → String
  legal_from_occupied : ∀ st m, m ∈ legalMoves st → pieceAt st m.fromSq ≠ none
  start_pieceAt : ∀ sq, pieceAt [] sq = startBoard sq
  start_turnWhite : turnWhite [] = true
  start_not_over : isGameOver [] = false
  start_not_check : isCheck [] = false

/-- Restrict a scripted legal-move list to moves whose origin square is
occupied; concrete `RulesEngine` instances below use it so that
`legal_from_occupied` holds by construction. -/
def guardLegal (pieceAt : List Move → Nat → Option Piece)
    (raw : List Move → List Move) : List Move → List Move :=
  fun st => (raw st).filter (fun m => (pieceAt st m.fromSq).isSome)

theorem guardLegal_from_occupied (pieceAt : List Move → Nat → Option Piece)
    (raw : List Move → List Move) :
    ∀ st m, m ∈ guardLegal pieceAt raw st → pieceAt st m.fromSq ≠ none := by
  intro st m hm
  simp only [guardLegal, List.mem_filter] at hm
  simpa [Option.isSome_iff_ne_none] using hm.2

/-- One entry of the `games` dictionary: the board (represented by its move
stack) and the two captured-piece symbol lists. -/
structure Session where
  stack : List Move
  capturedWhite : List Char
  capturedBlack : List Char
deriving DecidableEq, Repr

/-- The session allocated by `new_game`: fresh board, empty capture lists. -/
def newSession : Session := ⟨[], [], []⟩

/-- Result of the `/api/move` handler: the updated session, the `success`
flag and the `ai_moved` flag of the JSON response. -/
structure MoveResult where
  sess : Session
  success : Bool
  aiMoved : Bool
deriving DecidableEq, Repr

/-- Python's `a or b` on two optional pieces: the destination-square piece if
present, otherwise the origin-square piece (lines 148 and 162 of
`src/main.py`). -/
def first_present (a b : Option Piece) : Option Piece :=
  match a with
  | some p => some p
  | none => b

/-- Capture bookkeeping of `make_move` (lines 147–150 and 161–164): if the
move captures, append the symbol of the piece found at the destination
square — or, as the en-passant fallback, at the origin square — to the given
capture list. -/
def captureAppend (E : RulesEngine) (st : List Move) (m : Move)
    (acc : List Char) : List Char :=
  if E.isCapture st m = true then
    match first_present (E.pieceAt st m.toSq) (E.pieceAt st m.fromSq) with
    | some p => acc ++ [p.symbol]
    | none => acc
  else acc

/-- Capture bookkeeping of `undo_move` (lines 215–217 and 221–223): if the
popped move was a capture and the capture list is nonempty, remove its last
symbol. -/
def capturePop (E : RulesEngine) (st : List Move) (m : Move)
    (acc : List Char) : List Char :=
  if E.isCapture st m = true then (if acc ≠ [] then acc.dropLast else acc)
  else acc

/-- Candidate-move construction of `make_move` (lines 134–142): translate the
frontend coordinates with `chess.square(col, 7 - row)`, and force promotion
to queen when the origin square holds a pawn and the destination lies on rank
0 or rank 7. -/
def candidateMove (E : RulesEngine) (st : List Move)
    (fromRow fromCol toRow toCol : Nat) : Move :=
  let fromSq := square fromCol (7 - fromRow)
  let toSq := square toCol (7 - toRow)
  match E.pieceAt st fromSq with
  | some p =>
      if p.ptype = PieceType.pawn ∧ (square_rank toSq = 0 ∨ square_rank toSq = 7)
      then ⟨fromSq, toSq, some PieceType.queen⟩
      else ⟨fromSq, toSq, none⟩
  | none => ⟨fromSq, toSq, none⟩

/-- The `/api/move` handler `make_move` (lines 123–175) for an existing
session: build the candidate move; if it is legal, record a possible capture
into the White capture list, push it, and — when the game is not over —
record the oracle's reply capture into the Black capture list and push the
reply; otherwise return the session unchanged with `success = false`. -/
def make_move (E : RulesEngine) (ai : List Move → Move) (s : Session)
    (fromRow fromCol toRow toCol : Nat) : MoveResult :=
  let move := candidateMove E s.stack fromRow fromCol toRow toCol
  if move ∈ E.legalMoves s.stack then
    let white := captureAppend E s.stack move s.capturedWhite
    let stack1 := s.stack ++ [move]
    if E.isGameOver stack1 = true then
      ⟨⟨stack1, white, s.capturedBlack⟩, true, false⟩
    else
      let aiMove := ai stack1
      let black := captureAppend E stack1 aiMove s.capturedBlack
      ⟨⟨stack1 ++ [aiMove], white, black⟩, true, true⟩
  else ⟨s, false, false⟩

/-- The `/api/undo` handler `undo_move` (lines 202–230) for an existing
session: with at least two moves on the stack, pop the automated reply and
revert its Black-list bookkeeping, then pop the player's move and revert its
White-list bookkeeping; otherwise fail softly. -/
def undo_move (E : RulesEngine) (s : Session) : Session × Bool :=
  match s.stack.reverse with
  | aiMv :: playerMv :: restRev =>
      ⟨⟨restRev.reverse,
        capturePop E restRev.reverse playerMv s.capturedWhite,
        capturePop E (playerMv :: restRev).reverse aiMv s.capturedBlack⟩, true⟩
  | _ => ⟨s, false⟩

/-- The `/api/valid_moves` handler `get_valid_moves` (lines 177–200) for an
existing session: the `[to_row, to_col]` coordinates of every legal move
whose origin is the requested square, in the engine's enumeration order. -/
def get_valid_moves (E : RulesEngine) (st : List Move) (row col : Nat) :
    List (Nat × Nat) :=
  let fromSq := square col (7 - row)
  (E.legalMoves st).filterMap fun m =>
    if m.fromSq = fromSq then
      some (7 - square_rank m.toSq, square_file m.toSq)
    else none

/-- The helper `board_to_2d_array` (lines 38–47): an 8×8 grid of piece
symbols, row 0 = rank 8. -/
def board_to_2d_array (E : RulesEngine) (st : List Move) :
    List (List (Option Char)) :=
  (List.range 8).map fun row => (List.range 8).map fun col =>
    (E.pieceAt st (square col (7 - row))).map Piece.symbol

/-- The helper `get_winner` (lines 49–59). -/
def get_winner (E : RulesEngine) (st : List Move) : Option String :=
  if E.isCheckmate st = true then
    if E.result st = "1-0" then some "white"
    else if E.result st = "0-1" then some "black"
    else none
  else if E.isStalemate st = true ∨ E.isInsufficientMaterial st = true ∨
      E.isSeventyfiveMoves st = true ∨ E.isFivefoldRepetition st = true then
    some "draw"
  else none

/-- The helper `get_last_move` (lines 61–69): coordinates of the most recent
move, or `none` when no move has been played. -/
def get_last_move (st : List Move) : Option ((Nat × Nat) × (Nat × Nat)) :=
  match st.reverse with
  | [] => none
  | m :: _ =>
      some ((7 - square_rank m.fromSq, square_file m.fromSq),
            (7 - square_rank m.toSq, square_file m.toSq))

/-- The SAN move-history recomputation of `game_state_to_dict` (lines 80–86):
replay the move list against a fresh starting position, rendering each move
in the position reached so far. -/
def san_history (E : RulesEngine) : List Move → List Move → List String
  | _, [] => []
  | temp, m :: rest => E.san temp m :: san_history E (temp ++ [m]) rest

/-- The `game_state` JSON object (lines 88–97). -/
structure Snapshot where
  board : List (List (Option Char))
  currentPlayer : String
  gameOver : Bool
  winner : Option String
  moveHistory : List String
  capturedWhite : List Char
  capturedBlack : List Char
  lastMove : Option ((Nat × Nat) × (Nat × Nat))
  isCheck : Bool
deriving DecidableEq, Repr

/-- The helper `game_state_to_dict` (lines 71–97) for an existing session. -/
def game_state_to_dict (E : RulesEngine) (s : Session) : Snapshot :=
  { board := board_to_2d_array E s.stack
    currentPlayer := if E.turnWhite s.stack = true then "white" else "black"
    gameOver := E.isGameOver s.stack
    winner := get_winner E s.stack
    moveHistory := san_history E [] s.stack
    capturedWhite := s.capturedWhite
    capturedBlack := s.capturedBlack
    lastMove := get_last_move s.stack
    isCheck := E.isCheck s.stack }

/-- The `/api/new_game` handler `new_game` (lines 106–121): the freshly
stored session and the snapshot returned to the client. -/
def new_game (E : RulesEngine) : Session × Snapshot :=
  (newSession, game_state_to_dict E newSession)

/-- The `/api/game_state` handler `get_game_state_route` (lines 232–242) for
an existing session: the (unchanged) session together with the snapshot it
returns. -/
def get_game_state_route (E : RulesEngine) (s : Session) :
    Session × Snapshot :=
  (s, game_state_to_dict E s)

/-- Sessions reachable from `new_game` by accepted `/api/move` and
`/api/undo` requests.  Each move step may use its own reply oracle (the
search engine need not be deterministic across requests); as the spec
guarantees, a reply actually requested — i.e. when the game is not over
after the player's move — is legal in the position it was requested for. -/
inductive Reachable (E : RulesEngine) : Session → Prop
  | new : Reachable E newSession
  | move (s : Session) (ai : List Move → Move) (fr fc tr tc : Nat) :
      Reachable E s →
      (E.isGameOver (s.stack ++ [candidateMove E s.stack fr fc tr tc]) = false →
        ai (s.stack ++ [candidateMove E s.stack fr fc tr tc]) ∈
          E.legalMoves (s.stack ++ [candidateMove E s.stack fr fc tr tc])) →
      (make_move E ai s fr fc tr tc).success = true →
      Reachable E (make_move E ai s fr fc tr tc).sess
  | undo (s : Session) : Reachable E s → (undo_move E s).2 = true →
      Reachable E (undo_move E s).1

/-- Like `Reachable`, but every accepted `/api/move` request is additionally
required to have produced an automated reply (`ai_moved = true`), so the
stack always consists of player/reply pairs. -/
inductive ReachablePaired (E : RulesEngine) : Session → Prop
  | new : ReachablePaired E newSession
  | move (s : Session) (ai : List Move → Move) (fr fc tr tc : Nat) :
      ReachablePaired E s →
      (E.isGameOver (s.stack ++ [candidateMove E s.stack fr fc tr tc]) = false →
        ai (s.stack ++ [candidateMove E s.stack fr fc tr tc]) ∈
          E.legalMoves (s.stack ++ [candidateMove E s.stack fr fc tr tc])) →
      (make_move E ai s fr fc tr tc).success = true →
      (make_move E ai s fr fc tr tc).aiMoved = true →
      ReachablePaired E (make_move E ai s fr fc tr tc).sess
  | undo (s : Session) : ReachablePaired E s → (undo_move E s).2 = true →
      ReachablePaired E (undo_move E s).1

/-- Number of capturing moves in `rest`, each judged by the rules engine in
the position reached by `pre` followed by the moves before it. -/
def countCapturingFrom (E : RulesEngine) : List Move → List Move → Nat
  | _, [] => 0
  | pre, m :: rest =>
      (if E.isCapture pre m = true then 1 else 0) +
        countCapturingFrom E (pre ++ [m]) rest

/-- Number of capturing moves on a move stack, each judged in the position it
was played from. -/
def countCapturing (E : RulesEngine) (st : List Move) : Nat :=
  countCapturingFrom E [] st

theorem first_present_some_left (a b : Option Piece) (p : Piece)
    (h : a = some p) : first_present a b = some p := by
  subst h; rfl

theorem first_present_isSome_of_right (a b : Option Piece) (h : b ≠ none) :
    ∃ p, first_present a b = some p := by
  cases a with
  | some q => exact ⟨q, rfl⟩
  | none =>
      cases hb : b with
      | none => exact absurd hb h
      | some q => exact ⟨q, by simp [first_present, hb]⟩

theorem captureAppend_not_capture (E : RulesEngine) (st : List Move)
    (m : Move) (acc : List Char) (h : E.isCapture st m = false) :
    captureAppend E st m acc = acc := by
  simp [captureAppend, h]

theorem captureAppend_some (E : RulesEngine) (st : List Move) (m : Move)
    (acc : List Char) (p : Piece) (hc : E.isCapture st m = true)
    (hp : first_present (E.pieceAt st m.toSq) (E.pieceAt st m.fromSq) = some p) :
    captureAppend E st m acc = acc ++ [p.symbol] := by
  simp [captureAppend, hc, hp]

theorem captureAppend_length (E : RulesEngine) (st : List Move) (m : Move)
    (acc : List Char) (h : E.pieceAt st m.fromSq ≠ none) :
    (captureAppend E st m acc).length =
      acc.length + (if E.isCapture st m = true then 1 else 0) := by
  cases hc : E.isCapture st m with
  | false => simp [captureAppend, hc]
  | true =>
      obtain ⟨p, hp⟩ :=
        first_present_isSome_of_right (E.pieceAt st m.toSq) (E.pieceAt st m.fromSq) h
      simp [captureAppend_some E st m acc p hc hp]

theorem capturePop_captureAppend (E : RulesEngine) (st : List Move) (m : Move)
    (acc : List Char) (h : E.pieceAt st m.fromSq ≠ none) :
    capturePop E st m (captureAppend E st m acc) = acc := by
  cases hc : E.isCapture st m with
  | false => simp [capturePop, captureAppend, hc]
  | true =>
      obtain ⟨p, hp⟩ :=
        first_present_isSome_of_right (E.pieceAt st m.toSq) (E.pieceAt st m.fromSq) h
      rw [captureAppend_some E st m acc p hc hp]
      simp [capturePop, hc]

theorem capturePop_nil (E : RulesEngine) (st : List Move) (m : Move) :
    capturePop E st m [] = [] := by
  simp [capturePop]

theorem make_move_illegal (E : RulesEngine) (ai : List Move → Move)
    (s : Session) (fr fc tr tc : Nat)
    (h : candidateMove E s.stack fr fc tr tc ∉ E.legalMoves s.stack) :
    make_move E ai s fr fc tr tc = ⟨s, false, false⟩ := by
  simp [make_move, h]

theorem make_move_legal_over (E : RulesEngine) (ai : List Move → Move)
    (s : Session) (fr fc tr tc : Nat)
    (hleg : candidateMove E s.stack fr fc tr tc ∈ E.legalMoves s.stack)
    (hover : E.isGameOver (s.stack ++ [candidateMove E s.stack fr fc tr tc]) = true) :
    make_move E ai s fr fc tr tc =
      ⟨⟨s.stack ++ [candidateMove E s.stack fr fc tr tc],
        captureAppend E s.stack (candidateMove E s.stack fr fc tr tc) s.capturedWhite,
        s.capturedBlack⟩, true, false⟩ := by
  simp [make_move, hleg, hover]

theorem make_move_legal_not_over (E : RulesEngine) (ai : List Move → Move)
    (s : Session) (fr fc tr tc : Nat)
    (hleg : candidateMove E s.stack fr fc tr tc ∈ E.legalMoves s.stack)
    (hover : E.isGameOver (s.stack ++ [candidateMove E s.stack fr fc tr tc]) = false) :
    make_move E ai s fr fc tr tc =
      ⟨⟨(s.stack ++ [candidateMove E s.stack fr fc tr tc]) ++
          [ai (s.stack ++ [candidateMove E s.stack fr fc tr tc])],
        captureAppend E s.stack (candidateMove E s.stack fr fc tr tc) s.capturedWhite,
        captureAppend E (s.stack ++ [candidateMove E s.stack fr fc tr tc])
          (ai (s.stack ++ [candidateMove E s.stack fr fc tr tc])) s.capturedBlack⟩,
       true, true⟩ := by
  simp [make_move, hleg, hover]

theorem make_move_success_legal (E : RulesEngine) (ai : List Move → Move)
    (s : Session) (fr fc tr tc : Nat)
    (h : (make_move E ai s fr fc tr tc).success = true) :
    candidateMove E s.stack fr fc tr tc ∈ E.legalMoves s.stack := by
  by_cases hleg : candidateMove E s.stack fr fc tr tc ∈ E.legalMoves s.stack
  · exact hleg
  · rw [make_move_illegal E ai s fr fc tr tc hleg] at h
    cases h

theorem undo_move_append (E : RulesEngine) (st : List Move) (p a : Move)
    (w b : List Char) :
    undo_move E ⟨st ++ [p, a], w, b⟩ =
      ⟨⟨st, capturePop E st p w, capturePop E (st ++ [p]) a b⟩, true⟩ := by
  have hrev : (st ++ [p, a]).reverse = a :: p :: st.reverse := by
    simp
  simp [undo_move, hrev]

theorem undo_move_decomp (E : RulesEngine) (s : Session) (st : List Move)
    (p a : Move) (hst : s.stack = st ++ [p, a]) :
    undo_move E s =
      ⟨⟨st, capturePop E st p s.capturedWhite,
        capturePop E (st ++ [p]) a s.capturedBlack⟩, true⟩ := by
  obtain ⟨stack, w, b⟩ := s
  simp only at hst
  subst hst
  exact undo_move_append E st p a w b

theorem undo_move_short (E : RulesEngine) (s : Session)
    (h : s.stack.length < 2) : undo_move E s = ⟨s, false⟩ := by
  cases h1 : s.stack.reverse with
  | nil => simp [undo_move, h1]
  | cons a t =>
      cases t with
      | nil => simp [undo_move, h1]
      | cons p r =>
          exfalso
          have : s.stack.length = s.stack.reverse.length := by simp
          rw [h1] at this
          simp at this
          omega

theorem stack_decomp (l : List Move) (h : 2 ≤ l.length) :
    ∃ init p a, l = init ++ [p, a] := by
  cases h1 : l.reverse with
  | nil =>
      exfalso
      have hl : l = [] := by
        have := congrArg List.reverse h1
        simpa using this
      rw [hl] at h
      simp at h
  | cons a t =>
      cases t with
      | nil =>
          exfalso
          have hl : l = [a] := by
            have := congrArg List.reverse h1
            simpa using this
          rw [hl] at h
          simp at h
      | cons p r =>
          refine ⟨r.reverse, p, a, ?_⟩
          have : l = l.reverse.reverse := by simp
          rw [this, h1]
          simp

/-- Move stacks made of consecutive player/reply pairs, indexed by the number
of capturing player moves and the number of capturing reply moves they
contain (each judged in the position it was played from). -/
inductive PairedHist (E : RulesEngine) : List Move → Nat → Nat → Prop
  | nil : PairedHist E [] 0 0
  | snoc (st : List Move) (w b : Nat) (p a : Move) :
      PairedHist E st w b →
      PairedHist E (st ++ [p, a])
        (w + (if E.isCapture st p = true then 1 else 0))
        (b + (if E.isCapture (st ++ [p]) a = true then 1 else 0))

theorem pairedHist_inv (E : RulesEngine) (l : List Move) (w b : Nat)
    (h : PairedHist E l w b) :
    (l = [] ∧ w = 0 ∧ b = 0) ∨
      ∃ st p a w₀ b₀, PairedHist E st w₀ b₀ ∧ l = st ++ [p, a] ∧
        w = w₀ + (if E.isCapture st p = true then 1 else 0) ∧
        b = b₀ + (if E.isCapture (st ++ [p]) a = true then 1 else 0) := by
  cases h with
  | nil => exact Or.inl ⟨rfl, rfl, rfl⟩
  | snoc st w₀ b₀ p a hprev =>
      exact Or.inr ⟨st, p, a, w₀, b₀, hprev, rfl, rfl, rfl⟩

theorem countCapturingFrom_concat (E : RulesEngine) (xs : List Move) :
    ∀ (pre : List Move) (x : Move),
      countCapturingFrom E pre (xs ++ [x]) =
        countCapturingFrom E pre xs +
          (if E.isCapture (pre ++ xs) x = true then 1 else 0) := by
  induction xs with
  | nil =>
      intro pre x
      simp [countCapturingFrom]
  | cons y ys ih =>
      intro pre x
      simp only [List.cons_append, countCapturingFrom, List.append_eq]
      rw [ih (pre ++ [y]) x]
      have hpre : (pre ++ [y]) ++ ys = pre ++ y :: ys := by simp
      rw [hpre]
      omega

theorem countCapturing_pair (E : RulesEngine) (st : List Move) (p a : Move) :
    countCapturing E (st ++ [p, a]) =
      countCapturing E st + (if E.isCapture st p = true then 1 else 0) +
        (if E.isCapture (st ++ [p]) a = true then 1 else 0) := by
  have h1 : st ++ [p, a] = (st ++ [p]) ++ [a] := by simp
  rw [countCapturing, h1, countCapturingFrom_concat E (st ++ [p]) [] a]
  rw [countCapturingFrom_concat E st [] p]
  simp [countCapturing]

theorem pairedHist_count (E : RulesEngine) (l : List Move) (w b : Nat)
    (h : PairedHist E l w b) : w + b = countCapturing E l := by
  induction h with
  | nil => rfl
  | snoc st w₀ b₀ p a _ ih =>
      rw [countCapturing_pair]
      omega

theorem reachablePaired_pairedHist (E : RulesEngine) (s : Session)
    (h : ReachablePaired E s) :
    PairedHist E s.stack s.capturedWhite.length s.capturedBlack.length := by
  induction h with
  | new => exact PairedHist.nil
  | move s ai fr fc tr tc _ ham hsucc haim ih =>
      have hleg := make_move_success_legal E ai s fr fc tr tc hsucc
      by_cases hover :
          E.isGameOver (s.stack ++ [candidateMove E s.stack fr fc tr tc]) = true
      · rw [make_move_legal_over E ai s fr fc tr tc hleg hover] at haim
        cases haim
      · rw [Bool.not_eq_true] at hover
        rw [make_move_legal_not_over E ai s fr fc tr tc hleg hover]
        have hwp : E.pieceAt s.stack (candidateMove E s.stack fr fc tr tc).fromSq ≠ none :=
          E.legal_from_occupied s.stack _ hleg
        have hbp : E.pieceAt (s.stack ++ [candidateMove E s.stack fr fc tr tc])
            (ai (s.stack ++ [candidateMove E s.stack fr fc tr tc])).fromSq ≠ none :=
          E.legal_from_occupied _ _ (ham hover)
        simp only [captureAppend_length E _ _ _ hwp, captureAppend_length E _ _ _ hbp]
        have hshape : (s.stack ++ [candidateMove E s.stack fr fc tr tc]) ++
            [ai (s.stack ++ [candidateMove E s.stack fr fc tr tc])] =
            s.stack ++ [candidateMove E s.stack fr fc tr tc,
              ai (s.stack ++ [candidateMove E s.stack fr fc tr tc])] := by
          simp
        rw [hshape]
        exact PairedHist.snoc s.stack _ _ _ _ ih
  | undo s _ hsucc ih =>
      rcases pairedHist_inv E s.stack s.capturedWhite.length
          s.capturedBlack.length ih with hnil | hsnoc
      · exfalso
        have hshort : s.stack.length < 2 := by
          rw [hnil.1]
          simp
        rw [undo_move_short E s hshort] at hsucc
        cases hsucc
      · obtain ⟨st, p, a, w₀, b₀, hprev, hst, hw, hb⟩ := hsnoc
        rw [undo_move_decomp E s st p a hst]
        have hwlen : (capturePop E st p s.capturedWhite).length = w₀ := by
          by_cases hcp : E.isCapture st p = true
          · have hlen : s.capturedWhite.length = w₀ + 1 := by
              rw [hw, hcp]
              simp
            have hne : s.capturedWhite ≠ [] := by
              intro hc
              rw [hc] at hlen
              simp at hlen
            simp [capturePop, hcp, hne, List.length_dropLast, hlen]
          · rw [Bool.not_eq_true] at hcp
            have hlen : s.capturedWhite.length = w₀ := by
              rw [hw, hcp]
              simp
            simp [capturePop, hcp, hlen]
        have hblen : (capturePop E (st ++ [p]) a s.capturedBlack).length = b₀ := by
          by_cases hca : E.isCapture (st ++ [p]) a = true
          · have hlen : s.capturedBlack.length = b₀ + 1 := by
              rw [hb, hca]
              simp
            have hne : s.capturedBlack ≠ [] := by
              intro hc
              rw [hc] at hlen
              simp at hlen
            simp [capturePop, hca, hne, List.length_dropLast, hlen]
          · rw [Bool.not_eq_true] at hca
            have hlen : s.capturedBlack.length = b₀ := by
              rw [hb, hca]
              simp
            simp [capturePop, hca, hlen]
        rw [hwlen, hblen]
        exact hprev

/-- White pawn. -/
def wP : Piece := ⟨.pawn, true⟩

/-- White knight. -/
def wN : Piece := ⟨.knight, true⟩

/-- White bishop. -/
def wB : Piece := ⟨.bishop, true⟩

/-- White queen. -/
def wQ : Piece := ⟨.queen, true⟩

/-- White king. -/
def wK : Piece := ⟨.king, true⟩

/-- Black pawn. -/
def bP : Piece := ⟨.pawn, false⟩

/-- Black knight. -/
def bN : Piece := ⟨.knight, false⟩

/-- Black king. -/
def bK : Piece := ⟨.king, false⟩

/-- The move e2–e4. -/
def mvE4 : Move := ⟨12, 28, none⟩

/-- The move e7–e5. -/
def mvE5 : Move := ⟨52, 36, none⟩

/-- The move d1–h5 (Qh5). -/
def mvQh5 : Move := ⟨3, 39, none⟩

/-- The move b8–c6 (Nc6). -/
def mvNc6 : Move := ⟨57, 42, none⟩

/-- The move f1–c4 (Bc4). -/
def mvBc4 : Move := ⟨5, 26, none⟩

/-- The move g8–f6 (Nf6). -/
def mvNf6 : Move := ⟨62, 45, none⟩

/-- The move h5–f7 (Qxf7, capturing the f7 pawn). -/
def mvQxf7 : Move := ⟨39, 53, none⟩

/-- The move e8–f7 (Kxf7, the king capturing a queen on f7). -/
def mvKxf7 : Move := ⟨60, 53, none⟩

/-- Scripted piece query used by `demoEngine`: every position looks like the
starting arrangement. -/
def demoPieceAt : List Move → Nat → Option Piece := fun _ sq => startBoard sq

/-- Scripted legal-move list used by `demoEngine`: e2–e4 is always legal. -/
def demoRaw : List Move → List Move := fun _ => [mvE4]

/-- A minimal conforming rules-engine instance, used by the witnesses: e2–e4
is always legal, nothing ever captures and the game never ends. -/
def demoEngine : RulesEngine where
  legalMoves := guardLegal demoPieceAt demoRaw
  pieceAt := demoPieceAt
  isCapture := fun _ _ => false
  isGameOver := fun _ => false
  turnWhite := fun st => decide (st.length % 2 = 0)
  isCheck := fun _ => false
  isCheckmate := fun _ => false
  isStalemate := fun _ => false
  isInsufficientMaterial := fun _ => false
  isSeventyfiveMoves := fun _ => false
  isFivefoldRepetition := fun _ => false
  result := fun _ => "*"
  san := fun _ _ => ""
  legal_from_occupied := guardLegal_from_occupied demoPieceAt demoRaw
  start_pieceAt := fun _ => rfl
  start_turnWhite := rfl
  start_not_over := rfl
  start_not_check := rfl

/-- Reply oracle used with `demoEngine`: always answer e2–e4. -/
def demoAi : List Move → Move := fun _ => mvE4

/-- Stack after 1. e4 e5 2. Qh5 Nc6. -/
def stkA4 : List Move := [mvE4, mvE5, mvQh5, mvNc6]

/-- Stack after 1. e4 e5 2. Qh5 Nc6 3. Bc4. -/
def stkA5 : List Move := [mvE4, mvE5, mvQh5, mvNc6, mvBc4]

/-- Stack after 1. e4 e5 2. Qh5 Nc6 3. Bc4 Nf6. -/
def stkA6 : List Move := [mvE4, mvE5, mvQh5, mvNc6, mvBc4, mvNf6]

/-- Stack after the Scholar's-mate game 1. e4 e5 2. Qh5 Nc6 3. Bc4 Nf6
4. Qxf7#. -/
def stkA7 : List Move := [mvE4, mvE5, mvQh5, mvNc6, mvBc4, mvNf6, mvQxf7]

/-- Stack after 1. e4 e5 2. Qh5 Nf6. -/
def stkB4 : List Move := [mvE4, mvE5, mvQh5, mvNf6]

/-- Stack after 1. e4 e5 2. Qh5 Nf6 3. Qxf7+. -/
def stkB5 : List Move := [mvE4, mvE5, mvQh5, mvNf6, mvQxf7]

/-- Stack after 1. e4 e5 2. Qh5 Nf6 3. Qxf7+ Kxf7. -/
def stkB6 : List Move := [mvE4, mvE5, mvQh5, mvNf6, mvQxf7, mvKxf7]

/-- Scripted piece query of `scriptEngine`: the pieces actually standing on
the queried squares of the two game lines (only the squares the handlers
look at are scripted; unscripted squares report empty). -/
def scriptPieceAt (st : List Move) (sq : Nat) : Option Piece :=
  if st = [] then startBoard sq
  else if st = [mvE4] then (if sq = 52 then some bP else none)
  else if st = [mvE4, mvE5] then (if sq = 3 then some wQ else none)
  else if st = [mvE4, mvE5, mvQh5] then
    (if sq = 57 then some bN else if sq = 62 then some bN else none)
  else if st = stkA4 then (if sq = 5 then some wB else none)
  else if st = stkA5 then (if sq = 62 then some bN else none)
  else if st = stkA6 then
    (if sq = 39 then some wQ else if sq = 53 then some bP else none)
  else if st = stkB4 then
    (if sq = 39 then some wQ else if sq = 53 then some bP else none)
  else if st = stkB5 then
    (if sq = 60 then some bK else if sq = 53 then some wQ else none)
  else none

/-- Scripted legal-move lists of `scriptEngine` along the two game lines. -/
def scriptRaw (st : List Move) : List Move :=
  if st = [] then [mvE4]
  else if st = [mvE4] then [mvE5]
  else if st = [mvE4, mvE5] then [mvQh5]
  else if st = [mvE4, mvE5, mvQh5] then [mvNc6, mvNf6]
  else if st = stkA4 then [mvBc4]
  else if st = stkA5 then [mvNf6]
  else if st = stkA6 then [mvQxf7]
  else if st = stkB4 then [mvQxf7]
  else if st = stkB5 then [mvKxf7]
  else []

/-- A conforming rules-engine instance scripting two concrete game lines:
the Scholar's-mate line 1. e4 e5 2. Qh5 Nc6 3. Bc4 Nf6 4. Qxf7# (a capturing
player move that ends the game, so no automated reply follows), and the line
1. e4 e5 2. Qh5 Nf6 3. Qxf7+ Kxf7 in which, with the game flagged over after
Qxf7+, Black's king capture of the queen is submitted as a player move. -/
def scriptEngine : RulesEngine where
  legalMoves := guardLegal scriptPieceAt scriptRaw
  pieceAt := scriptPieceAt
  isCapture := fun st m =>
    if st = stkA6 ∧ m = mvQxf7 then true
    else if st = stkB4 ∧ m = mvQxf7 then true
    else if st = stkB5 ∧ m = mvKxf7 then true
    else false
  isGameOver := fun st =>
    if st = stkA7 then true else if st = stkB5 then true
    else if st = stkB6 then true else false
  turnWhite := fun st => decide (st.length % 2 = 0)
  isCheck := fun st => if st = stkA7 then true else if st = stkB5 then true else false
  isCheckmate := fun st => if st = stkA7 then true else false
  isStalemate := fun _ => false
  isInsufficientMaterial := fun _ => false
  isSeventyfiveMoves := fun _ => false
  isFivefoldRepetition := fun _ => false
  result := fun st => if st = stkA7 then "1-0" else "*"
  san := fun _ _ => ""
  legal_from_occupied := guardLegal_from_occupied scriptPieceAt scriptRaw
  start_pieceAt := fun _ => rfl
  start_turnWhite := by decide
  start_not_over := by decide
  start_not_check := by decide

/-- Reply oracle of the Scholar's-mate line: e5, Nc6, Nf6. -/
def scriptAiA : List Move → Move := fun st =>
  if st = [mvE4] then mvE5
  else if st = [mvE4, mvE5, mvQh5] then mvNc6
  else if st = stkA5 then mvNf6
  else mvE5

/-- Reply oracle of the Kxf7 line: e5, then Nf6. -/
def scriptAiB : List Move → Move := fun st =>
  if st = [mvE4] then mvE5
  else if st = [mvE4, mvE5, mvQh5] then mvNf6
  else mvE5

/-- The session left behind by playing the Scholar's-mate line and then one
accepted undo: Qxf7# and Nf6 are popped, but the capture of the f7 pawn —
recorded in the White list when Qxf7# was accepted — is popped from the
(empty) Black list, so the symbol survives on a stack with no capturing
move. -/
def cexSessionA : Session := ⟨stkA5, ['p'], []⟩

/-- The session holding the position after 1. e4 e5 2. Qh5 Nf6 3. Qxf7+ with
the game flagged over: Black to move, White's capture of the f7 pawn already
recorded. -/
def cexSessionB : Session := ⟨stkB5, ['p'], []⟩

/-- The 8×8 grid of the standard starting arrangement as the frontend
receives it: row 0 = rank 8 (Black's back rank), uppercase = White. -/
def startGrid : List (List (Option Char)) :=
  [[some 'r', some 'n', some 'b', some 'q', some 'k', some 'b', some 'n', some 'r'],
   List.replicate 8 (some 'p'),
   List.replicate 8 none,
   List.replicate 8 none,
   List.replicate 8 none,
   List.replicate 8 none,
   List.replicate 8 (some 'P'),
   [some 'R', some 'N', some 'B', some 'Q', some 'K', some 'B', some 'N', some 'R']]

/-- C5: NewGame has no preconditions and its returned snapshot always shows
the standard starting arrangement in the 8×8 board grid (row 0 = rank 8,
uppercase = white), current player white, both captured-piece lists empty,
empty move history, no last move, game not over, and not in check. -/
theorem c5_new_game_snapshot (E : RulesEngine) :
    (new_game E).2.board = startGrid ∧
    (new_game E).2.currentPlayer = "white" ∧
    (new_game E).2.capturedWhite = [] ∧
    (new_game E).2.capturedBlack = [] ∧
    (new_game E).2.moveHistory = [] ∧
    (new_game E).2.lastMove = none ∧
    (new_game E).2.gameOver = false ∧
    (new_game E).2.isCheck = false := by
  refine ⟨?_, ?_, rfl, rfl, rfl, rfl, E.start_not_over, E.start_not_check⟩
  · show board_to_2d_array E [] = startGrid
    have h : board_to_2d_array E [] =
        (List.range 8).map (fun row => (List.range 8).map fun col =>
          (startBoard (square col (7 - row))).map Piece.symbol) := by
      simp [board_to_2d_array, E.start_pieceAt]
    rw [h]
    decide
  · show (if E.turnWhite [] = true then "white" else "black") = "white"
    rw [E.start_turnWhite]
    rfl

/-- C2: Illegal-move rejection is atomic: whenever the constructed candidate
(after the queen-promotion adjustment) is not in the position's legal-move
set, `make_move` reports failure and leaves the session — move stack and
both capture lists — exactly as it was. -/
theorem c2_illegal_move_atomic (E : RulesEngine) (ai : List Move → Move)
    (s : Session) (fr fc tr tc : Nat)
    (h : candidateMove E s.stack fr fc tr tc ∉ E.legalMoves s.stack) :
    make_move E ai s fr fc tr tc = ⟨s, false, false⟩ :=
  make_move_illegal E ai s fr fc tr tc h

theorem c2_witness :
    make_move demoEngine demoAi newSession 6 0 3 0 =
      ⟨newSession, false, false⟩ :=
  c2_illegal_move_atomic demoEngine demoAi newSession 6 0 3 0 (by decide)

/-- C6: Queen-only promotion: the candidate move carries promotion to queen
exactly when the origin square holds a pawn and the destination lies on rank
0 or rank 7; no other promotion piece is ever produced, and no promotion is
set in any other case. -/
theorem c6_promotion_queen_only (E : RulesEngine) (st : List Move)
    (fr fc tr tc : Nat) :
    ((candidateMove E st fr fc tr tc).promotion = some PieceType.queen ∨
      (candidateMove E st fr fc tr tc).promotion = none) ∧
    ((candidateMove E st fr fc tr tc).promotion = some PieceType.queen ↔
      ((∃ p, E.pieceAt st (square fc (7 - fr)) = some p ∧
          p.ptype = PieceType.pawn) ∧
        (square_rank (square tc (7 - tr)) = 0 ∨
          square_rank (square tc (7 - tr)) = 7))) := by
  cases hp : E.pieceAt st (square fc (7 - fr)) with
  | none => simp [candidateMove, hp]
  | some p =>
      by_cases hc : p.ptype = PieceType.pawn ∧
          (square_rank (square tc (7 - tr)) = 0 ∨
            square_rank (square tc (7 - tr)) = 7)
      · have he : candidateMove E st fr fc tr tc =
            ⟨square fc (7 - fr), square tc (7 - tr), some PieceType.queen⟩ := by
          simp [candidateMove, hp, hc]
        rw [he]
        refine ⟨Or.inl rfl, ?_⟩
        constructor
        · intro _
          exact ⟨⟨p, rfl, hc.1⟩, hc.2⟩
        · intro _
          rfl
      · have he : candidateMove E st fr fc tr tc =
            ⟨square fc (7 - fr), square tc (7 - tr), none⟩ := by
          simp [candidateMove, hp, hc]
        rw [he]
        refine ⟨Or.inr rfl, ?_⟩
        constructor
        · intro hx
          simp at hx
        · rintro ⟨⟨q, hq, hqp⟩, hrank⟩
          exfalso
          apply hc
          refine ⟨?_, hrank⟩
          have hqe : q = p := (Option.some.inj hq).symm
          rw [hqe] at hqp
          exact hqp

theorem c6_witness :
    (candidateMove demoEngine [] 1 0 0 0).promotion = some PieceType.queen :=
  (c6_promotion_queen_only demoEngine [] 1 0 0 0).2.mpr
    ⟨⟨bP, by decide, rfl⟩, by decide⟩

/-- C7: QueryLegalDestinations correctness: a coordinate pair is returned
exactly when it is the destination of a legal move originating at the
requested square, and the result is empty whenever no piece occupies that
square. -/
theorem c7_valid_moves_correct (E : RulesEngine) (st : List Move)
    (row col : Nat) :
    (∀ tr tc : Nat, (tr, tc) ∈ get_valid_moves E st row col ↔
      ∃ m, m ∈ E.legalMoves st ∧ m.fromSq = square col (7 - row) ∧
        tr = 7 - square_rank m.toSq ∧ tc = square_file m.toSq) ∧
    (E.pieceAt st (square col (7 - row)) = none →
      get_valid_moves E st row col = []) := by
  constructor
  · intro tr tc
    simp only [get_valid_moves, List.mem_filterMap]
    constructor
    · rintro ⟨m, hm, hf⟩
      by_cases h : m.fromSq = square col (7 - row)
      · rw [if_pos h] at hf
        have hpair := Option.some.inj hf
        have h1 : 7 - square_rank m.toSq = tr := congrArg Prod.fst hpair
        have h2 : square_file m.toSq = tc := congrArg Prod.snd hpair
        exact ⟨m, hm, h, h1.symm, h2.symm⟩
      · rw [if_neg h] at hf
        cases hf
    · rintro ⟨m, hm, hfrom, htr, htc⟩
      refine ⟨m, hm, ?_⟩
      rw [if_pos hfrom, htr, htc]
  · intro hnone
    simp only [get_valid_moves]
    rw [List.filterMap_eq_nil_iff]
    intro m hm
    have hocc := E.legal_from_occupied st m hm
    have hne : m.fromSq ≠ square col (7 - row) := by
      intro he
      apply hocc
      rw [he]
      exact hnone
    rw [if_neg hne]

theorem c7_witness :
    (4, 4) ∈ get_valid_moves demoEngine [] 6 4 ∧
      get_valid_moves demoEngine [] 4 4 = [] := by
  constructor
  · exact ((c7_valid_moves_correct demoEngine [] 6 4).1 4 4).mpr
      ⟨mvE4, by decide⟩
  · exact (c7_valid_moves_correct demoEngine [] 4 4).2 (by decide)

/-- C9: Snapshot queries do not mutate: `get_game_state_route` returns the
session unchanged, and two consecutive snapshot queries return identical
snapshots. -/
theorem c9_snapshot_query_pure (E : RulesEngine) (s : Session) :
    (get_game_state_route E s).1 = s ∧
    (get_game_state_route E (get_game_state_route E s).1).2 =
      (get_game_state_route E s).2 :=
  ⟨rfl, rfl⟩

/-- C10: Implicit totality of the undo success path: with at least two moves
on the stack the undo always succeeds, and popping a capturing move whose
capture list is already empty silently skips the removal (the guarded pop
leaves the empty list empty) instead of raising an error. -/
theorem c10_undo_total_on_broken_lists (E : RulesEngine) (s : Session)
    (h : 2 ≤ s.stack.length) :
    (undo_move E s).2 = true ∧
    (s.capturedBlack = [] → (undo_move E s).1.capturedBlack = []) ∧
    (s.capturedWhite = [] → (undo_move E s).1.capturedWhite = []) := by
  obtain ⟨init, p, a, hst⟩ := stack_decomp s.stack h
  rw [undo_move_decomp E s init p a hst]
  refine ⟨rfl, ?_, ?_⟩
  · intro he
    show capturePop E (init ++ [p]) a s.capturedBlack = []
    rw [he]
    exact capturePop_nil E (init ++ [p]) a
  · intro he
    show capturePop E init p s.capturedWhite = []
    rw [he]
    exact capturePop_nil E init p

theorem c10_witness :
    (undo_move scriptEngine ⟨stkA7, [], []⟩).2 = true ∧
    ((⟨stkA7, [], []⟩ : Session).capturedBlack = [] →
      (undo_move scriptEngine ⟨stkA7, [], []⟩).1.capturedBlack = []) ∧
    ((⟨stkA7, [], []⟩ : Session).capturedWhite = [] →
      (undo_move scriptEngine ⟨stkA7, [], []⟩).1.capturedWhite = []) :=
  c10_undo_total_on_broken_lists scriptEngine ⟨stkA7, [], []⟩ (by decide)

/-- C4: Undo precondition: `undo_move` fails softly if and only if fewer
than two moves are on the stack; otherwise it succeeds and pops exactly the
two most recent moves. -/
theorem c4_undo_iff_two_moves (E : RulesEngine) (s : Session) :
    ((undo_move E s).2 = false ↔ s.stack.length < 2) ∧
    (2 ≤ s.stack.length → (undo_move E s).2 = true ∧
      (undo_move E s).1.stack = s.stack.dropLast.dropLast) := by
  by_cases h : 2 ≤ s.stack.length
  · obtain ⟨init, p, a, hst⟩ := stack_decomp s.stack h
    rw [undo_move_decomp E s init p a hst]
    constructor
    · constructor
      · intro hx
        cases hx
      · intro hx
        exfalso
        rw [hst] at hx
        simp at hx
    · intro _
      refine ⟨rfl, ?_⟩
      show init = s.stack.dropLast.dropLast
      rw [hst]
      have hsh : init ++ [p, a] = (init ++ [p]) ++ [a] := by simp
      rw [hsh, List.dropLast_concat, List.dropLast_concat]
  · have hlt : s.stack.length < 2 := by omega
    rw [undo_move_short E s hlt]
    constructor
    · exact iff_of_true rfl hlt
    · intro hx
      exact absurd hx h

theorem c4_witness :
    (undo_move demoEngine ⟨[mvE4, mvE4], [], []⟩).2 = true ∧
    (undo_move demoEngine ⟨[mvE4, mvE4], [], []⟩).1.stack =
      (⟨[mvE4, mvE4], [], []⟩ : Session).stack.dropLast.dropLast :=
  (c4_undo_iff_two_moves demoEngine ⟨[mvE4, mvE4], [], []⟩).2 (by decide)

/-- C3: Undo/redo symmetry: if an accepted `make_move` played a player move
followed by an automated reply (`ai_moved = true`), a subsequent `undo_move`
restores the previous session exactly — in particular the board grid, both
capture lists and the side to move of its snapshot. -/
theorem c3_undo_restores_paired_exchange (E : RulesEngine)
    (ai : List Move → Move) (s : Session) (fr fc tr tc : Nat)
    (ham : E.isGameOver (s.stack ++ [candidateMove E s.stack fr fc tr tc]) = false →
      ai (s.stack ++ [candidateMove E s.stack fr fc tr tc]) ∈
        E.legalMoves (s.stack ++ [candidateMove E s.stack fr fc tr tc]))
    (hsucc : (make_move E ai s fr fc tr tc).success = true)
    (hreply : (make_move E ai s fr fc tr tc).aiMoved = true) :
    undo_move E (make_move E ai s fr fc tr tc).sess = (s, true) ∧
    game_state_to_dict E (undo_move E (make_move E ai s fr fc tr tc).sess).1 =
      game_state_to_dict E s := by
  have hleg := make_move_success_legal E ai s fr fc tr tc hsucc
  by_cases hover :
      E.isGameOver (s.stack ++ [candidateMove E s.stack fr fc tr tc]) = true
  · rw [make_move_legal_over E ai s fr fc tr tc hleg hover] at hreply
    cases hreply
  · rw [Bool.not_eq_true] at hover
    have hfirst : undo_move E (make_move E ai s fr fc tr tc).sess = (s, true) := by
      rw [make_move_legal_not_over E ai s fr fc tr tc hleg hover]
      show undo_move E
        ⟨(s.stack ++ [candidateMove E s.stack fr fc tr tc]) ++
            [ai (s.stack ++ [candidateMove E s.stack fr fc tr tc])],
          captureAppend E s.stack (candidateMove E s.stack fr fc tr tc)
            s.capturedWhite,
          captureAppend E (s.stack ++ [candidateMove E s.stack fr fc tr tc])
            (ai (s.stack ++ [candidateMove E s.stack fr fc tr tc]))
            s.capturedBlack⟩ = (s, true)
      have hsh : (s.stack ++ [candidateMove E s.stack fr fc tr tc]) ++
          [ai (s.stack ++ [candidateMove E s.stack fr fc tr tc])] =
          s.stack ++ [candidateMove E s.stack fr fc tr tc,
            ai (s.stack ++ [candidateMove E s.stack fr fc tr tc])] := by
        simp
      rw [hsh, undo_move_append]
      rw [capturePop_captureAppend E s.stack _ _
        (E.legal_from_occupied s.stack _ hleg)]
      rw [capturePop_captureAppend E _ _ _
        (E.legal_from_occupied _ _ (ham hover))]
    refine ⟨hfirst, ?_⟩
    rw [hfirst]

theorem c3_witness :
    undo_move demoEngine (make_move demoEngine demoAi newSession 6 4 4 4).sess =
      (newSession, true) ∧
    game_state_to_dict demoEngine
        (undo_move demoEngine
          (make_move demoEngine demoAi newSession 6 4 4 4).sess).1 =
      game_state_to_dict demoEngine newSession :=
  c3_undo_restores_paired_exchange demoEngine demoAi newSession 6 4 4 4
    (by decide) (by decide) (by decide)

/-- C1 (counterexample): the capture-bookkeeping invariant fails on a
reachable session.  Playing the Scholar's-mate line 1. e4 e5 2. Qh5 Nc6
3. Bc4 Nf6 4. Qxf7# records the captured f7 pawn in the White list, and the
mating move — being game-ending — gets no automated reply, so the stack has
odd length.  The subsequent accepted undo pops Qxf7# as if it were the
automated reply, consulting the (empty) Black list, and pops the non-capture
Nf6 as the player move, so the symbol `p` survives although no capturing
move remains on the stack: the totals are 1 and 0. -/
theorem c1_counterexample :
    Reachable scriptEngine cexSessionA ∧
    cexSessionA.capturedWhite.length + cexSessionA.capturedBlack.length ≠
      countCapturing scriptEngine cexSessionA.stack := by
  constructor
  · have h0 : Reachable scriptEngine newSession := Reachable.new
    have h1 := Reachable.move newSession scriptAiA 6 4 4 4 h0
      (by decide) (by decide)
    have e1 : (make_move scriptEngine scriptAiA newSession 6 4 4 4).sess =
        ⟨[mvE4, mvE5], [], []⟩ := by decide
    rw [e1] at h1
    have h2 := Reachable.move ⟨[mvE4, mvE5], [], []⟩ scriptAiA 7 3 3 7 h1
      (by decide) (by decide)
    have e2 : (make_move scriptEngine scriptAiA ⟨[mvE4, mvE5], [], []⟩
        7 3 3 7).sess = ⟨stkA4, [], []⟩ := by decide
    rw [e2] at h2
    have h3 := Reachable.move ⟨stkA4, [], []⟩ scriptAiA 7 5 4 2 h2
      (by decide) (by decide)
    have e3 : (make_move scriptEngine scriptAiA ⟨stkA4, [], []⟩
        7 5 4 2).sess = ⟨stkA6, [], []⟩ := by decide
    rw [e3] at h3
    have h4 := Reachable.move ⟨stkA6, [], []⟩ scriptAiA 3 7 1 5 h3
      (by decide) (by decide)
    have e4 : (make_move scriptEngine scriptAiA ⟨stkA6, [], []⟩
        3 7 1 5).sess = ⟨stkA7, ['p'], []⟩ := by decide
    rw [e4] at h4
    have h5 := Reachable.undo ⟨stkA7, ['p'], []⟩ h4 (by decide)
    have e5 : (undo_move scriptEngine ⟨stkA7, ['p'], []⟩).1 = cexSessionA := by
      decide
    rw [e5] at h5
    exact h5
  · decide

/-- C1 (amended): the capture-bookkeeping invariant holds for every session
reachable through accepted requests in which every accepted move request
produced an automated reply (`ai_moved = true`), so that the stack always
consists of player/reply pairs: the total length of the two capture lists
equals the number of capturing moves on the stack. -/
theorem c1_amended_capture_invariant (E : RulesEngine) (s : Session)
    (h : ReachablePaired E s) :
    s.capturedWhite.length + s.capturedBlack.length =
      countCapturing E s.stack :=
  pairedHist_count E s.stack _ _ (reachablePaired_pairedHist E s h)

theorem c1_amended_witness :
    (make_move demoEngine demoAi newSession 6 4 4 4).sess.capturedWhite.length +
      (make_move demoEngine demoAi newSession 6 4 4 4).sess.capturedBlack.length =
      countCapturing demoEngine
        (make_move demoEngine demoAi newSession 6 4 4 4).sess.stack :=
  c1_amended_capture_invariant demoEngine _
    (ReachablePaired.move newSession demoAi 6 4 4 4 ReachablePaired.new
      (by decide) (by decide) (by decide))

/-- C8 (counterexample): captures are not always credited to the side that
made the move.  In the line 1. e4 e5 2. Qh5 Nf6 3. Qxf7+, with the game
flagged over after Qxf7+ (so no automated reply follows), Black's king
capture Kxf7 of the white queen is submitted and accepted as a player move;
its captured symbol `Q` is appended to the White capture list, while the
Black list — the list of the side that moved — stays empty. -/
theorem c8_counterexample :
    Reachable scriptEngine cexSessionB ∧
    (make_move scriptEngine scriptAiB cexSessionB 0 4 1 5).success = true ∧
    (make_move scriptEngine scriptAiB cexSessionB 0 4 1 5).aiMoved = false ∧
    scriptEngine.isCapture cexSessionB.stack
      (candidateMove scriptEngine cexSessionB.stack 0 4 1 5) = true ∧
    scriptEngine.pieceAt cexSessionB.stack
      (candidateMove scriptEngine cexSessionB.stack 0 4 1 5).fromSq = some bK ∧
    bK.white = false ∧
    ¬((make_move scriptEngine scriptAiB cexSessionB 0 4 1 5).sess.capturedBlack.length =
        cexSessionB.capturedBlack.length + 1 ∧
      (make_move scriptEngine scriptAiB cexSessionB 0 4 1 5).sess.capturedWhite =
        cexSessionB.capturedWhite) := by
  constructor
  · have h0 : Reachable scriptEngine newSession := Reachable.new
    have h1 := Reachable.move newSession scriptAiB 6 4 4 4 h0
      (by decide) (by decide)
    have e1 : (make_move scriptEngine scriptAiB newSession 6 4 4 4).sess =
        ⟨[mvE4, mvE5], [], []⟩ := by decide
    rw [e1] at h1
    have h2 := Reachable.move ⟨[mvE4, mvE5], [], []⟩ scriptAiB 7 3 3 7 h1
      (by decide) (by decide)
    have e2 : (make_move scriptEngine scriptAiB ⟨[mvE4, mvE5], [], []⟩
        7 3 3 7).sess = ⟨stkB4, [], []⟩ := by decide
    rw [e2] at h2
    have h3 := Reachable.move ⟨stkB4, [], []⟩ scriptAiB 3 7 1 5 h2
      (by decide) (by decide)
    have e3 : (make_move scriptEngine scriptAiB ⟨stkB4, [], []⟩
        3 7 1 5).sess = cexSessionB := by decide
    rw [e3] at h3
    exact h3
  · decide

/-- C8 (amended): on acceptance, a capturing submitted move's captured
symbol — resolved from the destination square first, then the origin square
as the en-passant fallback — is appended to the White capture list, and a
capturing automated reply's symbol to the Black capture list, unconditionally
(the code indexes the lists by fixed keys, not by the side that actually
moved; the two coincide only while the submitting player is moving White). -/
theorem c8_amended_capture_credit (E : RulesEngine) (ai : List Move → Move)
    (s : Session) (fr fc tr tc : Nat)
    (ham : E.isGameOver (s.stack ++ [candidateMove E s.stack fr fc tr tc]) = false →
      ai (s.stack ++ [candidateMove E s.stack fr fc tr tc]) ∈
        E.legalMoves (s.stack ++ [candidateMove E s.stack fr fc tr tc]))
    (hsucc : (make_move E ai s fr fc tr tc).success = true) :
    (E.isCapture s.stack (candidateMove E s.stack fr fc tr tc) = true →
      ∃ p, first_present
          (E.pieceAt s.stack (candidateMove E s.stack fr fc tr tc).toSq)
          (E.pieceAt s.stack (candidateMove E s.stack fr fc tr tc).fromSq) =
          some p ∧
        (make_move E ai s fr fc tr tc).sess.capturedWhite =
          s.capturedWhite ++ [p.symbol]) ∧
    (E.isCapture s.stack (candidateMove E s.stack fr fc tr tc) = false →
      (make_move E ai s fr fc tr tc).sess.capturedWhite = s.capturedWhite) ∧
    ((make_move E ai s fr fc tr tc).aiMoved = false →
      (make_move E ai s fr fc tr tc).sess.capturedBlack = s.capturedBlack) ∧
    ((make_move E ai s fr fc tr tc).aiMoved = true →
      (E.isCapture (s.stack ++ [candidateMove E s.stack fr fc tr tc])
          (ai (s.stack ++ [candidateMove E s.stack fr fc tr tc])) = true →
        ∃ q, first_present
            (E.pieceAt (s.stack ++ [candidateMove E s.stack fr fc tr tc])
              (ai (s.stack ++ [candidateMove E s.stack fr fc tr tc])).toSq)
            (E.pieceAt (s.stack ++ [candidateMove E s.stack fr fc tr tc])
              (ai (s.stack ++ [candidateMove E s.stack fr fc tr tc])).fromSq) =
            some q ∧
          (make_move E ai s fr fc tr tc).sess.capturedBlack =
            s.capturedBlack ++ [q.symbol]) ∧
      (E.isCapture (s.stack ++ [candidateMove E s.stack fr fc tr tc])
          (ai (s.stack ++ [candidateMove E s.stack fr fc tr tc])) = false →
        (make_move E ai s fr fc tr tc).sess.capturedBlack = s.capturedBlack)) := by
  have hleg := make_move_success_legal E ai s fr fc tr tc hsucc
  have hwhite : (make_move E ai s fr fc tr tc).sess.capturedWhite =
      captureAppend E s.stack (candidateMove E s.stack fr fc tr tc)
        s.capturedWhite := by
    by_cases hover :
        E.isGameOver (s.stack ++ [candidateMove E s.stack fr fc tr tc]) = true
    · rw [make_move_legal_over E ai s fr fc tr tc hleg hover]
    · rw [Bool.not_eq_true] at hover
      rw [make_move_legal_not_over E ai s fr fc tr tc hleg hover]
  refine ⟨?_, ?_, ?_, ?_⟩
  · intro hcap
    obtain ⟨p, hp⟩ := first_present_isSome_of_right
      (E.pieceAt s.stack (candidateMove E s.stack fr fc tr tc).toSq)
      (E.pieceAt s.stack (candidateMove E s.stack fr fc tr tc).fromSq)
      (E.legal_from_occupied s.stack _ hleg)
    refine ⟨p, hp, ?_⟩
    rw [hwhite, captureAppend_some E s.stack _ _ p hcap hp]
  · intro hcap
    rw [hwhite, captureAppend_not_capture E s.stack _ _ hcap]
  · intro hnoai
    by_cases hover :
        E.isGameOver (s.stack ++ [candidateMove E s.stack fr fc tr tc]) = true
    · rw [make_move_legal_over E ai s fr fc tr tc hleg hover]
    · rw [Bool.not_eq_true] at hover
      rw [make_move_legal_not_over E ai s fr fc tr tc hleg hover] at hnoai
      cases hnoai
  · intro hai
    by_cases hover :
        E.isGameOver (s.stack ++ [candidateMove E s.stack fr fc tr tc]) = true
    · rw [make_move_legal_over E ai s fr fc tr tc hleg hover] at hai
      cases hai
    · rw [Bool.not_eq_true] at hover
      have hblack : (make_move E ai s fr fc tr tc).sess.capturedBlack =
          captureAppend E (s.stack ++ [candidateMove E s.stack fr fc tr tc])
            (ai (s.stack ++ [candidateMove E s.stack fr fc tr tc]))
            s.capturedBlack := by
        rw [make_move_legal_not_over E ai s fr fc tr tc hleg hover]
      constructor
      · intro hcap
        obtain ⟨q, hq⟩ := first_present_isSome_of_right
          (E.pieceAt (s.stack ++ [candidateMove E s.stack fr fc tr tc])
            (ai (s.stack ++ [candidateMove E s.stack fr fc tr tc])).toSq)
          (E.pieceAt (s.stack ++ [candidateMove E s.stack fr fc tr tc])
            (ai (s.stack ++ [candidateMove E s.stack fr fc tr tc])).fromSq)
          (E.legal_from_occupied _ _ (ham hover))
        refine ⟨q, hq, ?_⟩
        rw [hblack, captureAppend_some E _ _ _ q hcap hq]
      · intro hcap
        rw [hblack, captureAppend_not_capture E _ _ _ hcap]

theorem c8_amended_witness :
    (make_move demoEngine demoAi newSession 6 4 4 4).sess.capturedWhite =
      newSession.capturedWhite :=
  (c8_amended_capture_credit demoEngine demoAi newSession 6 4 4 4
    (by decide) (by decide)).2.1 (by decide)

end ChessApp
